import Mathlib

/-!
Verification of the road-hazard analysis pipeline.

The development embeds the hazard-analysis edge functions: the
places-based orchestrator (its `serve` handler together with
`calculateDistance`, `levenshteinDistance`, `calculateSimilarity`,
`searchPlacesWithExpansion`, `classifyHazard` and `cleanDescription`)
and, in the `LLMVariant` namespace, the LLM-based variant
(`createSimpleFallback`, `processHazardText` and its `serve` handler).

Modelling conventions:
* JavaScript strings are modelled by Lean `String` at interfaces and by
  `List Char` in the helper functions, because the character-level
  operations of the source (split, includes, regex word replacement)
  are re-implemented here directly over character lists.
* JavaScript numbers are modelled by `Rat`.  The haversine
  `calculateDistance` applies transcendental functions, so the distance
  calculator is abstracted as a function parameter `dist`; every
  theorem about the search holds for an arbitrary such function, in
  particular for the haversine one.  All constants of the source
  (0.6, 0.7, 0.85, 0.000621371, the radius rings) are exact rationals.
* Network and database effects are modelled by environment records: the
  places provider is the flattened list of results the pagination loop
  accumulates per queried radius, with `none` standing for a thrown
  fetch or parse error in that ring (which the source catches), and
  logging writes are best-effort side effects with no bearing on the
  returned data, so they are not part of the state.
-/

/-! ## Character-list models of the JavaScript string operations -/

/-- JS `String.prototype.toLowerCase`, modelled character-wise. -/
def jsToLower (s : List Char) : List Char := s.map Char.toLower

/-- JS `toLowerCase` on a whole string. -/
def jsToLowerS (s : String) : String := ⟨jsToLower s.data⟩

/-- JS word character, the `\w` character class: ASCII letters, digits
and underscore. -/
def isWordChar (c : Char) : Bool :=
  c.isAlpha || c.isDigit || c == '_'

/-- JS `String.prototype.trim`: drop whitespace from both ends. -/
def jsTrim (s : List Char) : List Char :=
  ((s.dropWhile Char.isWhitespace).reverse.dropWhile Char.isWhitespace).reverse

/-- JS `String.prototype.includes`: does `needle` occur as a contiguous
substring of `haystack`?  Helper: prefix test. -/
def listStartsWith : List Char → List Char → Bool
  | _, [] => true
  | [], _ :: _ => false
  | h :: hs, n :: ns => (h == n) && listStartsWith hs ns

/-- JS `String.prototype.includes`. -/
def jsIncludes : List Char → List Char → Bool
  | [], ns => ns.isEmpty
  | h :: t, ns => listStartsWith (h :: t) ns || jsIncludes t ns

/-- Match `pat` against a prefix of `s`, comparing case-insensitively
when `ci` is true (the `i` regex flag); on success return the rest of
`s`. -/
def matchWord (ci : Bool) : List Char → List Char → Option (List Char)
  | s, [] => some s
  | [], _ :: _ => none
  | c :: s, p :: ps =>
      if (if ci then c.toLower = p.toLower else c = p) then matchWord ci s ps else none

/-- Scanner for JS `s.replace(/\bpat\b/g..., rep)` with a fixed word
`pat`: replace every occurrence of `pat` that is delimited by `\b` word
boundaries, scanning left to right past each replacement.  `prev` is
the original character right before the scan position (`none` at the
start); `fuel` is a structural-termination counter always instantiated
large enough to never run out. -/
def replaceWordAux (ci : Bool) (pat rep : List Char) : ℕ → Option Char → List Char → List Char
  | 0, _, s => s
  | _ + 1, _, [] => []
  | fuel + 1, prev, c :: s =>
      let boundaryBefore := match prev with
        | none => true
        | some pc => !(isWordChar pc)
      match (if boundaryBefore then matchWord ci (c :: s) pat else none) with
      | some rest =>
          let boundaryAfter := match rest with
            | [] => true
            | rc :: _ => !(isWordChar rc)
          if boundaryAfter then
            rep ++ replaceWordAux ci pat rep fuel (pat.getLast?) rest
          else
            c :: replaceWordAux ci pat rep fuel (some c) s
      | none => c :: replaceWordAux ci pat rep fuel (some c) s

/-- JS `s.replace(/\bpat\b/gi, rep)` (case-insensitive, global, word
bounded). -/
def replaceWordCI (pat rep s : List Char) : List Char :=
  replaceWordAux true pat rep (s.length + 1) none s

/-- JS `s.replace(/\bpat\b/g, rep)` (case-sensitive, global, word
bounded). -/
def replaceWordCS (pat rep s : List Char) : List Char :=
  replaceWordAux false pat rep (s.length + 1) none s

/-- Is `c` one of the terminal punctuation characters of the regex
character class `[.!?]`? -/
def isTerminalPunct (c : Char) : Bool := c == '.' || c == '!' || c == '?'

/-- Does the string end in terminal punctuation (JS `/[.!?]$/`)? -/
def endsInTerminalPunct (s : List Char) : Bool :=
  match s.getLast? with
  | some c => isTerminalPunct c
  | none => false

/-- JS `s.replace(/([.!?])\s*$/, c)` with the capture as replacement:
when the string ends in a terminal-punctuation character followed by
whitespace, drop that trailing whitespace; otherwise leave the string
unchanged.  Note this normalisation never adds punctuation. -/
def normalizeEnding (s : List Char) : List Char :=
  let rev := s.reverse
  let rest := rev.dropWhile Char.isWhitespace
  match rest with
  | c :: _ => if isTerminalPunct c then rest.reverse else s
  | [] => s

/-- JS `s.replace(/\s+/g, ' ')`: collapse every whitespace run to one
space.  The Boolean argument records whether the previous character was
whitespace. -/
def collapseWsAux : Bool → List Char → List Char
  | _, [] => []
  | prevWs, c :: s =>
      if c.isWhitespace then
        (if prevWs then collapseWsAux true s else ' ' :: collapseWsAux true s)
      else c :: collapseWsAux false s

/-- JS `s.replace(/\s+/g, ' ')`. -/
def collapseWs (s : List Char) : List Char := collapseWsAux false s

/-! ## Fuzzy matcher -/

/-- The `levenshteinDistance` function of the source: its
dynamic-programming matrix entry `matrix[j][i]` is the edit distance
between the length-`i` prefix of `a` and the length-`j` prefix of `b`
under unit insert, delete and substitute costs, and the returned
bottom-right entry is the Levenshtein distance of `a` and `b`, embedded
via Mathlib `levenshtein` with the unit cost structure. -/
def levenshteinDistance (a b : String) : ℕ :=
  levenshtein Levenshtein.defaultCost a.data b.data

/-- The `calculateSimilarity` function of the source: normalized edit
similarity of the lower-cased strings against the longer original
length; two empty strings score 1. -/
def calculateSimilarity (a b : String) : ℚ :=
  let maxLength : ℕ := max a.length b.length
  if maxLength = 0 then 1
  else ((maxLength : ℚ) - (levenshteinDistance (jsToLowerS a) (jsToLowerS b) : ℚ)) / (maxLength : ℚ)

/-! ## Data model of the places search -/

/-- A WGS84 coordinate pair. -/
structure Coord where
  lat : ℚ
  lng : ℚ
deriving DecidableEq, Repr

/-- One result row of the places-search provider (the `PlaceResult`
interface of the source; the unused optional `rating` is omitted). -/
structure PlaceResult where
  name : String
  formatted_address : String
  location : Coord
  place_id : String
  types : List String
deriving DecidableEq, Repr

/-- The four radius rings of `searchPlacesWithExpansion`, in meters. -/
def radiusLayers : List ℕ := [1600, 4800, 8000, 16000]

/-- The `confidenceThresholds` table: confidence ceiling per ring.  A
key outside the table would be `undefined` in the source; it is never
looked up because radii always come from `radiusLayers`. -/
def confidenceThresholds (radius : ℕ) : String :=
  if radius = 1600 then "high"
  else if radius = 4800 then "medium"
  else if radius = 8000 then "medium"
  else if radius = 16000 then "low"
  else "undefined"

/-- The meters-to-miles conversion applied to each ring radius in the
local distance filter (`radius * 0.000621371`). -/
def metersToMiles (radius : ℕ) : ℚ := (radius : ℚ) * (0.000621371 : ℚ)

/-- The stop words removed from the query when extracting candidate
business names. -/
def stopWords : List String := ["near", "by", "at", "on", "the", "and", "or"]

/-- The significant query words: the source lower-cases the query,
splits it on whitespace runs, and keeps words longer than two
characters that are not stop words.  `List.splitOnP` yields extra empty
fragments relative to the `\s+` regex split; all of them are discarded
by the length filter. -/
def businessNamesOf (query : String) : List String :=
  (((jsToLower query.data).splitOnP Char.isWhitespace).map fun w => (⟨w⟩ : String)).filter
    fun w => decide (w.length > 2) && !(stopWords.contains w)

/-- Replace underscores by spaces in a place type tag
(JS `type.replace(/_/g, ' ')`). -/
def underscoreToSpace (s : String) : String :=
  ⟨s.data.map fun c => if c = '_' then ' ' else c⟩

/-- The similarity score the search assigns to a place for the given
significant query words: the maximum name similarity over the words,
widened by place-type similarities when the name similarity stays
below 0.6. -/
def maxSimilarityFor (businessNames : List String) (place : PlaceResult) : ℚ :=
  let nameSim := businessNames.foldl (fun acc bn => max acc (calculateSimilarity bn place.name)) 0
  if nameSim < (0.6 : ℚ) then
    place.types.foldl
      (fun acc ty =>
        businessNames.foldl (fun acc2 bn => max acc2 (calculateSimilarity bn (underscoreToSpace ty))) acc)
      nameSim
  else nameSim

/-- A tracked candidate: the `bestMatch` record of the ring loop. -/
structure SearchMatch where
  place : PlaceResult
  distance : ℚ
  similarity : ℚ
deriving DecidableEq, Repr

/-- Does the candidate beat the currently tracked best?  Higher
similarity wins; at equal or higher similarity a strictly shorter
distance wins. -/
def improves (cand : SearchMatch) : Option SearchMatch → Bool
  | none => true
  | some b =>
      decide (cand.similarity > b.similarity) ||
        (decide (cand.similarity ≥ b.similarity) && decide (cand.distance < b.distance))

/-- One step of the best-match tracking loop: candidates must clear the
0.7 similarity floor and beat the current best. -/
def updateBest (bm : Option SearchMatch) (cand : SearchMatch) : Option SearchMatch :=
  if decide (cand.similarity > (0.7 : ℚ)) && improves cand bm then some cand else bm

/-- The candidates of one ring surviving the local radius filter, each
paired with its computed distance and similarity score.  `dist`
abstracts the haversine `calculateDistance`, whose value feeds only
comparisons; every theorem below holds for an arbitrary distance
function, in particular the haversine one. -/
def ringCandidates (dist : Coord → Coord → ℚ) (origin : Coord) (query : String)
    (radius : ℕ) (results : List PlaceResult) : List SearchMatch :=
  results.filterMap fun place =>
    let d := dist origin place.location
    if d > metersToMiles radius then none
    else some ⟨place, d, maxSimilarityFor (businessNamesOf query) place⟩

/-- The best tracked candidate of one ring. -/
def bestMatchOfRing (dist : Coord → Coord → ℚ) (origin : Coord) (query : String)
    (radius : ℕ) (results : List PlaceResult) : Option SearchMatch :=
  (ringCandidates dist origin query radius results).foldl updateBest none

/-- The value returned by a successful search: the selected place with
its distance, similarity and the confidence ceiling of its ring. -/
structure SearchResult where
  place : PlaceResult
  distance : ℚ
  similarity : ℚ
  confidence : String
deriving DecidableEq, Repr

/-- The radius-expansion loop, over an explicit list of rings, also
returning the radii actually sent to the places provider.  A `none`
from the provider models a thrown fetch or parse error for that ring,
which the source catches and treats as an empty ring. -/
def searchLoop (dist : Coord → Coord → ℚ) (origin : Coord) (query : String)
    (provider : ℕ → Option (List PlaceResult)) :
    List ℕ → Option SearchResult × List ℕ
  | [] => (none, [])
  | r :: rs =>
      match provider r with
      | none =>
          let rest := searchLoop dist origin query provider rs
          (rest.1, r :: rest.2)
      | some results =>
          match bestMatchOfRing dist origin query r results with
          | some bm =>
              if bm.similarity ≥ (0.85 : ℚ) then
                (some ⟨bm.place, bm.distance, bm.similarity, confidenceThresholds r⟩, [r])
              else
                let rest := searchLoop dist origin query provider rs
                (rest.1, r :: rest.2)
          | none =>
              let rest := searchLoop dist origin query provider rs
              (rest.1, r :: rest.2)

/-- The `searchPlacesWithExpansion` function of the source (with the
logging writes dropped: they never influence the returned data). -/
def searchPlacesWithExpansion (dist : Coord → Coord → ℚ) (origin : Coord) (query : String)
    (provider : ℕ → Option (List PlaceResult)) : Option SearchResult :=
  (searchLoop dist origin query provider radiusLayers).1

/-- The radii the search actually queried the provider at. -/
def queriedRadii (dist : Coord → Coord → ℚ) (origin : Coord) (query : String)
    (provider : ℕ → Option (List PlaceResult)) : List ℕ :=
  (searchLoop dist origin query provider radiusLayers).2

/-- The confident best of a ring, if any: the tracked best candidate of
the ring when it reaches the 0.85 similarity threshold. -/
def confidentBest (dist : Coord → Coord → ℚ) (origin : Coord) (query : String)
    (provider : ℕ → Option (List PlaceResult)) (r : ℕ) : Option SearchMatch :=
  match provider r with
  | none => none
  | some results =>
      match bestMatchOfRing dist origin query r results with
      | some bm => if bm.similarity ≥ (0.85 : ℚ) then some bm else none
      | none => none

/-- A concrete place used by the witness for C2. -/
def gasPlace : PlaceResult :=
  { name := "gas", formatted_address := "1 Main St", location := ⟨0, 0⟩,
    place_id := "id1", types := [] }

/-! ## Hazard text classifier and description cleanup -/

/-- The result triple of `classifyHazard`. -/
structure Classification where
  hazardType : String
  severity : String
  title : String
deriving DecidableEq, Repr

/-- The `classifyHazard` keyword cascade of the source: case-insensitive
substring tests in a fixed priority order, first match wins. -/
def classifyHazard (description : String) : Classification :=
  let text := jsToLower description.data
  let has := fun (w : String) => jsIncludes text w.data
  if has "accident" || has "crash" || has "collision" then
    ⟨"accident", "high", "Accident Alert"⟩
  else if has "ice" || has "frost" || has "frozen" then
    ⟨"ice", "high", "Ice Hazard"⟩
  else if has "tree" && (has "fell" || has "down" || has "fallen" || has "blocking") then
    ⟨"obstruction", "high", "Fallen Tree"⟩
  else if has "blocked" || has "blocking" || has "closure" then
    ⟨"obstruction", "high", "Road Closure"⟩
  else if has "flood" || has "water" || has "flooding" then
    ⟨"flooding", "medium", "Water Hazard"⟩
  else if has "construction" || has "work" || has "crew" then
    ⟨"construction", "medium", "Construction Zone"⟩
  else if has "debris" || has "trash" || has "garbage" then
    ⟨"debris", "medium", "Road Debris"⟩
  else if has "pothole" || has "hole" then
    ⟨"pothole", "low", "Pothole Alert"⟩
  else if has "sign" && has "down" then
    ⟨"debris", "low", "Sign Down"⟩
  else ⟨"unknown", "medium", "Road Hazard"⟩

/-- The `cleanDescription` function of the source: fix a fixed table of
misspellings (word-bounded, case-insensitive), trim, capitalize the
first word character, then normalize the ending with the regex
`([.!?])\s*$` -> the captured character.  After the trim that final
step only strips whitespace behind existing punctuation; it never adds
punctuation. -/
def cleanDescription (input : String) : String :=
  let s := input.data
  let s := replaceWordCI "teh".data "the".data s
  let s := replaceWordCI "thier".data "their".data s
  let s := replaceWordCI "you\u0027re".data "you are".data s
  let s := replaceWordCI "theres".data "there is".data s
  let s := replaceWordCI "dont".data "do not".data s
  let s := replaceWordCI "cant".data "cannot".data s
  let s := replaceWordCI "wont".data "will not".data s
  let s := jsTrim s
  let s := match s with
    | [] => []
    | c :: rest => if isWordChar c then c.toUpper :: rest else c :: rest
  ⟨normalizeEnding s⟩

/-! ## The places-based serve handler -/

/-- A location attached to an analysis result. -/
structure HazardLocation where
  address : String
  coordinates : Coord
  confidence : String
  source : Option String
  reasoning : Option String
deriving DecidableEq, Repr

/-- The `HazardAnalysis` shape returned by the places-based handler
(its `location` field is always present there). -/
structure HazardAnalysis where
  title : String
  hazardType : String
  description : String
  location : HazardLocation
  severity : String
  needsLocationConfirmation : Bool
  aiReasoning : Option String
deriving DecidableEq, Repr

/-- The last-known-location entry of the location context of the request. -/
structure LastKnown where
  lat : ℚ
  lng : ℚ
  address : Option String
deriving DecidableEq, Repr

/-- The location context of a request. -/
structure LocationContext where
  lastKnownLocation : Option LastKnown
deriving DecidableEq, Repr

/-- A parsed request body (a well-formed input). -/
structure Request where
  userInput : String
  locationContext : Option LocationContext
deriving DecidableEq, Repr

/-- The environment of the places-based handler: configuration and the
network collaborators.  The provider is the flattened page data per
radius as in the search model; `reverseGeocode` returns the formatted
address of the first geocoding result, or `none` on any failure. -/
structure Env where
  hasGoogleMapsApiKey : Bool
  provider : ℕ → Option (List PlaceResult)
  reverseGeocode : ℚ → ℚ → Option String
  dist : Coord → Coord → ℚ

/-- The two response shapes the handler can produce for a well-formed
input: an analysis body (with the HTTP-500 flag of the catch branch) or
the reverse-geocoding sentinel answer. -/
inductive ServeResponse where
  | analysis (a : HazardAnalysis) (status500 : Bool)
  | reverseGeocodeResult (s : Option String)
deriving DecidableEq, Repr

/-- The fixed error analysis built by the top-level catch branch. -/
def errorResponse : HazardAnalysis :=
  { title := "Road Hazard"
    hazardType := "unknown"
    description := "Unable to process hazard report due to system error."
    location :=
      { address := "📍 Location unavailable"
        coordinates := ⟨0, 0⟩
        confidence := "low"
        source := some "error"
        reasoning := some "System error prevented location analysis" }
    severity := "medium"
    needsLocationConfirmation := true
    aiReasoning := some "System error occurred during analysis. Please try again or manually specify location." }

/-- The fallback analysis of the handler when no confident place match
exists: the user last known location with medium confidence. -/
def userLocationFallback (env : Env) (c : Classification)
    (cleaned : String) (lastKnown : LastKnown) : HazardAnalysis :=
  let base := match lastKnown.address with
    | some a => a
    | none => toString lastKnown.lat ++ ", " ++ toString lastKnown.lng
  let userAddress := match env.reverseGeocode lastKnown.lat lastKnown.lng with
    | some a => a
    | none => base
  { title := c.title
    hazardType := c.hazardType
    description := cleaned
    location :=
      { address := ⟨"📍 ".data ++ userAddress.data⟩
        coordinates := ⟨lastKnown.lat, lastKnown.lng⟩
        confidence := "medium"
        source := some "user_location"
        reasoning := some "Used user current location as no confident business match was found nearby" }
    severity := c.severity
    needsLocationConfirmation := false
    aiReasoning := some "Could not find specific business location mentioned in description. Using user current location as the most likely hazard location." }

/-- The analysis returned when the request carries no usable location
context: classification plus a low-confidence placeholder location and
a confirmation request. -/
def noLocationAnalysis (req : Request) : HazardAnalysis :=
  let c := classifyHazard req.userInput
  { title := c.title
    hazardType := c.hazardType
    description := cleanDescription req.userInput
    location :=
      { address := "📍 Location needed for accurate reporting"
        coordinates := ⟨0, 0⟩
        confidence := "low"
        source := some "user_input_only"
        reasoning := some "No user location available - need location to find precise address" }
    severity := c.severity
    needsLocationConfirmation := true
    aiReasoning := some "Cannot determine precise location without user coordinates. Please share your location for accurate hazard reporting." }

/-- The analysis returned on a confident place match: the matched place
with its ring confidence ceiling, the place name spliced into the
description, and no confirmation request.  The interpolated debug
strings of the reasoning fields mix numbers into text via toFixed; no
claim depends on their exact rendering, so they are recorded as fixed
tags. -/
def confidentAnalysis (c : Classification) (cleaned : String) (sr : SearchResult) : HazardAnalysis :=
  { title := c.title
    hazardType := c.hazardType
    description := ⟨cleaned.data ++ " near ".data ++ sr.place.name.data ++ ".".data⟩
    location :=
      { address := ⟨"📍 ".data ++ sr.place.formatted_address.data⟩
        coordinates := sr.place.location
        confidence := sr.confidence
        source := some "places_api"
        reasoning := some "similarity and distance interpolation" }
    severity := c.severity
    needsLocationConfirmation := false
    aiReasoning := some "confident match interpolation" }

/-- The body of the places-based `serve` handler, inside its top-level
try block; `throw` models a thrown JS exception.  The interpolated
debug strings of the `reasoning` and `aiReasoning` fields mix numbers
into text via `toFixed`; no claim depends on their exact rendering, so
they are recorded as fixed tags. -/
def serveBody (env : Env) (req : Request) : Except String ServeResponse :=
  if !env.hasGoogleMapsApiKey then
    .error "Google Maps API key not configured"
  else if req.userInput = "reverse-geocode-only" ∧
      (req.locationContext.bind LocationContext.lastKnownLocation).isSome then
    match req.locationContext.bind LocationContext.lastKnownLocation with
    | some loc =>
        match env.reverseGeocode loc.lat loc.lng with
        | some addr => .ok (.reverseGeocodeResult (some addr))
        | none => .ok (.reverseGeocodeResult loc.address)
    | none => .ok (.reverseGeocodeResult none)
  else
    match req.locationContext.bind LocationContext.lastKnownLocation with
    | none => .ok (.analysis (noLocationAnalysis req) false)
    | some lastKnown =>
        let c := classifyHazard req.userInput
        let cleaned := cleanDescription req.userInput
        let origin : Coord := ⟨lastKnown.lat, lastKnown.lng⟩
        match searchPlacesWithExpansion env.dist origin req.userInput env.provider with
        | some sr =>
            if sr.similarity ≥ (0.85 : ℚ) then
              .ok (.analysis (confidentAnalysis c cleaned sr) false)
            else
              .ok (.analysis (userLocationFallback env c cleaned lastKnown) false)
        | none =>
            .ok (.analysis (userLocationFallback env c cleaned lastKnown) false)

/-- The places-based `serve` handler: the body inside the top-level try
block, with every thrown exception converted into the fixed error
analysis served with HTTP status 500. -/
def serve (env : Env) (req : Request) : ServeResponse :=
  match serveBody env req with
  | .ok r => r
  | .error _ => .analysis errorResponse true

/-! ## The LLM-based variant functions -/

namespace LLMVariant

/-- Replace the first plain occurrence of `pat` (JS non-global
`String.replace` with a string pattern). -/
def replaceFirst (pat rep : List Char) : List Char → List Char
  | [] => []
  | c :: s =>
      match matchWord false (c :: s) pat with
      | some rest => rep ++ rest
      | none => c :: replaceFirst pat rep s

/-- The location shape of the LLM-variant analyses (nullable address
and coordinates). -/
structure LLMLocation where
  address : Option String
  coordinates : Option Coord
  confidence : String
  source : String
  reasoning : Option String
deriving DecidableEq, Repr

/-- The `HazardAnalysis` shape of the LLM-variant files (nullable
location). -/
structure LLMAnalysis where
  title : String
  hazardType : String
  description : String
  location : Option LLMLocation
  severity : String
  needsLocationConfirmation : Bool
  aiReasoning : Option String
deriving DecidableEq, Repr

/-- The keyword cascade shared by `createSimpleFallback` and
`processHazardText`: title and severity from the first matching
keyword group. -/
def fallbackTitleSeverity (userInput : String) : String × String :=
  let lower := jsToLower userInput.data
  let has := fun (w : String) => jsIncludes lower w.data
  if has "tree" && (has "down" || has "fell") then ("Fallen Tree", "high")
  else if has "ice" || has "frost" then ("Ice Hazard", "high")
  else if has "accident" || has "crash" then ("Accident Alert", "high")
  else if has "construction" then ("Construction Zone", "medium")
  else if has "pothole" then ("Pothole Alert", "low")
  else if has "debris" || has "trash" then ("Road Debris", "medium")
  else ("Road Hazard", "medium")

/-- The `createSimpleFallback` function of the first LLM-variant file:
trim, capitalize the first character, append a period when terminal
punctuation is missing, classify by keywords, and adopt the user
location when one exists (its `toFixed(4)` coordinate rendering is
modelled with `toString`).  The `hazardType` field is the fixed string
"Road hazard". -/
def createSimpleFallback (userInput : String) (locationContext : Option LocationContext) :
    LLMAnalysis :=
  let trimmed := jsTrim userInput.data
  let capped := match trimmed with
    | [] => []
    | c :: rest => c.toUpper :: rest
  let cleanedText : String := ⟨if endsInTerminalPunct capped then capped else capped ++ ['.']⟩
  let ts := fallbackTitleSeverity userInput
  let location : Option LLMLocation :=
    match locationContext.bind LocationContext.lastKnownLocation with
    | some lk =>
        some
          { address := some (match lk.address with
              | some a => a
              | none => "📍 Location: " ++ toString lk.lat ++ ", " ++ toString lk.lng)
            coordinates := some ⟨lk.lat, lk.lng⟩
            confidence := "medium"
            source := "user_location"
            reasoning := some "Used user location as no specific place could be identified" }
    | none => none
  { title := ts.1
    hazardType := "Road hazard"
    description := cleanedText
    location := location
    severity := ts.2
    needsLocationConfirmation := location.isNone
    aiReasoning := some "Analysis created using fallback logic due to AI service unavailability" }

/-- The description cleanup of `processHazardText` in the second
LLM-variant file: trim, a fixed replacement table (including the
case-sensitive lone `i` capitalisation), whitespace collapse,
capitalize the first character, and append a period when terminal
punctuation is missing. -/
def processHazardTextDescription (userInput : String) : String :=
  let s := jsTrim userInput.data
  let s := replaceWordCS "i".data "I".data s
  let s := replaceWordCI "theres".data "there is".data s
  let s := replaceWordCI "thier".data "their".data s
  let s := replaceWordCI "teh".data "the".data s
  let s := replaceWordCI "walgrens".data "Walgreens".data s
  let s := replaceWordCI "bollingr".data "Bollinger".data s
  let s := collapseWs s
  let s := match s with
    | [] => []
    | c :: rest => c.toUpper :: rest
  ⟨if endsInTerminalPunct s then s else s ++ ['.']⟩

/-- The result record of `processHazardText`. -/
structure ProcessedText where
  title : String
  hazardType : String
  description : String
  severity : String
deriving DecidableEq, Repr

/-- The `processHazardText` helper of the second LLM-variant file. -/
def processHazardText (userInput : String) : ProcessedText :=
  let ts := fallbackTitleSeverity userInput
  { title := ts.1
    hazardType := "Road hazard"
    description := processHazardTextDescription userInput
    severity := ts.2 }

/-- A place produced by `searchPlaceWithContext`. -/
structure PlaceLite where
  name : String
  formatted_address : String
  coordinates : Coord
deriving DecidableEq, Repr

/-- The environment of the LLM-variant handler: credentials, the
parsed LLM completion (`none` for any recoverable LLM failure:
missing quota, auth failure, unparseable JSON), and the three
place/geocode collaborators with their internal error handling already
folded to `none`. -/
structure LLMEnv where
  hasOpenAIKey : Bool
  llm : Option LLMAnalysis
  enhance : Option String → Option LLMLocation
  geocode : String → Option Coord
  placeSearch : String → Option PlaceLite

/-- A parsed request body of the LLM-variant handler. -/
structure LLMRequest where
  userInput : String
  locationContext : Option LocationContext
  geocodeOnly : Bool
  placesSearchOnly : Bool

/-- The response shapes of the LLM-variant handler.  `errorJson` is the
top-level catch branch: an error object with an `error` and a
`details` field, served with HTTP status 500. -/
inductive LLMResponse where
  | analysis (a : LLMAnalysis)
  | placeResult (p : Option PlaceLite)
  | locationResult (c : Option Coord)
  | errorJson (error details : String)
deriving DecidableEq, Repr

/-- The body of the LLM-variant `serve` handler, inside its top-level
try block.  The two throw sites reachable on a well-formed request
body: the property access on an absent location context in the
places-search-only branch, and the missing OpenAI credential. -/
def serveBodyLLM (env : LLMEnv) (req : LLMRequest) : Except String LLMResponse :=
  if req.placesSearchOnly then
    match req.locationContext with
    | none => .error "TypeError: cannot read lastKnownLocation of undefined"
    | some _ =>
        .ok (.placeResult (env.placeSearch
          ⟨replaceFirst "Search place: ".data [] req.userInput.data⟩))
  else if req.geocodeOnly then
    .ok (.locationResult (env.geocode
      ⟨replaceFirst "Find location: ".data [] req.userInput.data⟩))
  else if !env.hasOpenAIKey then
    .error "OpenAI API key not configured"
  else
    let analysis :=
      match env.llm with
      | some a => a
      | none =>
          let base : LLMAnalysis :=
            { title := "Road Hazard"
              hazardType := "Road hazard"
              description := ⟨jsTrim req.userInput.data⟩
              location := none
              severity := "medium"
              needsLocationConfirmation := true
              aiReasoning := some "Analysis created using fallback logic due to AI service unavailability" }
          match req.locationContext.bind LocationContext.lastKnownLocation with
          | some lk =>
              { base with
                location := some
                  { address := some (match lk.address with
                      | some a => a
                      | none => "📍 Location: " ++ toString lk.lat ++ ", " ++ toString lk.lng)
                    coordinates := some ⟨lk.lat, lk.lng⟩
                    confidence := "medium"
                    source := "user_location"
                    reasoning := some "Used user location as no specific place could be identified" }
                needsLocationConfirmation := false }
          | none => base
    let analysis :=
      match analysis.location with
      | some loc =>
          if loc.confidence = "low" ∨ loc.confidence = "medium" then
            match env.enhance loc.address with
            | some newLoc =>
                { analysis with location := some newLoc, needsLocationConfirmation := false }
            | none => analysis
          else analysis
      | none => analysis
    let analysis :=
      match analysis.location with
      | some loc =>
          match loc.coordinates, loc.address with
          | none, some addr =>
              match env.geocode addr with
              | some coords =>
                  { analysis with
                    location := some
                      { loc with
                        coordinates := some coords
                        confidence := if loc.confidence = "low" then "medium" else loc.confidence }
                    needsLocationConfirmation := false }
              | none => analysis
          | _, _ => analysis
      | none => analysis
    .ok (.analysis analysis)

/-- The LLM-variant `serve` handler: the top-level catch converts any
thrown exception into the error object, not into a hazard report. -/
def serveLLM (env : LLMEnv) (req : LLMRequest) : LLMResponse :=
  match serveBodyLLM env req with
  | .ok r => r
  | .error e => .errorJson "Failed to analyze hazard report" e

end LLMVariant

/-- The place returned only in the largest ring for the C3
counterexample. -/
def lowRingPlace : PlaceResult :=
  { name := "safeway", formatted_address := "2 Main St", location := ⟨1, 1⟩,
    place_id := "id2", types := [] }

/-- An environment whose provider answers only in the 16000 m ring. -/
def env16 : Env :=
  { hasGoogleMapsApiKey := true
    provider := fun r => if r = 16000 then some [lowRingPlace] else some []
    reverseGeocode := fun _ _ => none
    dist := fun _ _ => 0 }

/-- A request naming the place of the largest ring. -/
def req16 : Request :=
  { userInput := "pothole near safeway"
    locationContext := some { lastKnownLocation := some { lat := 0, lng := 0, address := none } } }

/-- The analysis served in the C3 counterexample. -/
def c3Report : HazardAnalysis :=
  { title := "Pothole Alert"
    hazardType := "pothole"
    description := "Pothole near safeway near safeway."
    location :=
      { address := "📍 2 Main St"
        coordinates := ⟨1, 1⟩
        confidence := "low"
        source := some "places_api"
        reasoning := some "similarity and distance interpolation" }
    severity := "low"
    needsLocationConfirmation := false
    aiReasoning := some "confident match interpolation" }

/-- An environment with no provider credential: the handler throws and
the catch serves the error analysis. -/
def envKeyless : Env :=
  { hasGoogleMapsApiKey := false
    provider := fun _ => none
    reverseGeocode := fun _ _ => none
    dist := fun _ _ => 0 }

/-- A plain request with no location context. -/
def reqPlain : Request := { userInput := "pothole here", locationContext := none }

/-- A last-known location for the C5 witness. -/
def lkW : LastKnown := { lat := 37, lng := -121, address := some "3 Oak St" }

/-- A request carrying the witness location context. -/
def reqW : Request :=
  { userInput := "pothole here", locationContext := some { lastKnownLocation := some lkW } }

/-- An environment whose provider always returns empty rings. -/
def envEmpty : Env :=
  { hasGoogleMapsApiKey := true
    provider := fun _ => some []
    reverseGeocode := fun _ _ => none
    dist := fun _ _ => 0 }

/-- An LLM-variant environment with no OpenAI credential. -/
def envNoKey : LLMVariant.LLMEnv :=
  { hasOpenAIKey := false
    llm := none
    enhance := fun _ => none
    geocode := fun _ => none
    placeSearch := fun _ => none }

/-- A plain LLM-variant request. -/
def reqLLMPlain : LLMVariant.LLMRequest :=
  { userInput := "pothole here", locationContext := none,
    geocodeOnly := false, placesSearchOnly := false }

/-- The unit-cost edit distance of a list to itself is zero. -/
theorem levenshtein_defaultCost_self (l : List Char) :
    levenshtein Levenshtein.defaultCost l l = 0 := by
  induction l with
  | nil => simp [levenshtein_nil_nil]
  | cons x xs ih =>
      rw [levenshtein_cons_cons]
      simp [Levenshtein.defaultCost_delete, Levenshtein.defaultCost_insert,
        Levenshtein.defaultCost_substitute, ih]

/-- The unit-cost edit distance from the empty list is the length. -/
theorem levenshtein_defaultCost_nil_left (l : List Char) :
    levenshtein Levenshtein.defaultCost ([] : List Char) l = l.length := by
  induction l with
  | nil => simp [levenshtein_nil_nil]
  | cons y ys ih => rw [levenshtein_nil_cons, ih]; simp [Levenshtein.defaultCost]; omega

/-- The unit-cost edit distance to the empty list is the length. -/
theorem levenshtein_defaultCost_nil_right (l : List Char) :
    levenshtein Levenshtein.defaultCost l ([] : List Char) = l.length := by
  induction l with
  | nil => simp [levenshtein_nil_nil]
  | cons x xs ih => rw [levenshtein_cons_nil, ih]; simp [Levenshtein.defaultCost]; omega

/-- The unit-cost edit distance is at most the length of the longer
list (always substituting position-wise and then inserting or deleting
the overhang). -/
theorem levenshtein_defaultCost_le_max (xs : List Char) :
    ∀ ys : List Char,
      levenshtein Levenshtein.defaultCost xs ys ≤ max xs.length ys.length := by
  induction xs with
  | nil =>
      intro ys
      rw [levenshtein_defaultCost_nil_left]
      simp
  | cons x xs ih =>
      intro ys
      induction ys with
      | nil =>
          rw [levenshtein_defaultCost_nil_right]
          simp
      | cons y ys ihy =>
          rw [levenshtein_cons_cons]
          have hsub : Levenshtein.defaultCost.substitute x y ≤ 1 := by
            simp [Levenshtein.defaultCost]
            split <;> omega
          have h3 : Levenshtein.defaultCost.substitute x y +
              levenshtein Levenshtein.defaultCost xs ys ≤ 1 + max xs.length ys.length := by
            have := ih ys
            omega
          have hm : Nat.min
              (Levenshtein.defaultCost.delete x + levenshtein Levenshtein.defaultCost xs (y :: ys))
              (Nat.min (Levenshtein.defaultCost.insert y + levenshtein Levenshtein.defaultCost (x :: xs) ys)
                (Levenshtein.defaultCost.substitute x y + levenshtein Levenshtein.defaultCost xs ys)) ≤
              Levenshtein.defaultCost.substitute x y + levenshtein Levenshtein.defaultCost xs ys := by
            exact le_trans (Nat.min_le_right _ _) (Nat.min_le_right _ _)
          have hmax : max (x :: xs).length (y :: ys).length = 1 + max xs.length ys.length := by
            simp [List.length_cons, Nat.succ_max_succ]
            omega
          omega

/-- Lower-casing preserves the length. -/
theorem jsToLowerS_length (s : String) : (jsToLowerS s).length = s.length := by
  show (List.map Char.toLower s.data).length = s.data.length
  exact List.length_map _ _

/-- The edit distance of the lower-cased strings is bounded by the
longer original length. -/
theorem levenshteinDistance_lower_le_max (a b : String) :
    levenshteinDistance (jsToLowerS a) (jsToLowerS b) ≤ max a.length b.length := by
  have h := levenshtein_defaultCost_le_max (jsToLowerS a).data (jsToLowerS b).data
  have h1 : (jsToLowerS a).data.length = a.data.length := by
    show (List.map Char.toLower a.data).length = a.data.length
    exact List.length_map _ _
  have h2 : (jsToLowerS b).data.length = b.data.length := by
    show (List.map Char.toLower b.data).length = b.data.length
    exact List.length_map _ _
  rw [h1, h2] at h
  exact h

/-- The similarity score is nonnegative. -/
theorem calculateSimilarity_nonneg (a b : String) : 0 ≤ calculateSimilarity a b := by
  simp only [calculateSimilarity]
  by_cases h : max a.length b.length = 0
  · rw [if_pos h]; norm_num
  · rw [if_neg h]
    apply div_nonneg
    · have hle := levenshteinDistance_lower_le_max a b
      have hcast : ((levenshteinDistance (jsToLowerS a) (jsToLowerS b) : ℕ) : ℚ) ≤
          ((max a.length b.length : ℕ) : ℚ) := by exact_mod_cast hle
      linarith
    · positivity

/-- The similarity score is at most 1. -/
theorem calculateSimilarity_le_one (a b : String) : calculateSimilarity a b ≤ 1 := by
  simp only [calculateSimilarity]
  by_cases h : max a.length b.length = 0
  · rw [if_pos h]
  · rw [if_neg h]
    rw [div_le_one (by positivity : (0:ℚ) < ((max a.length b.length : ℕ) : ℚ))]
    have : (0:ℚ) ≤ ((levenshteinDistance (jsToLowerS a) (jsToLowerS b) : ℕ) : ℚ) := by
      positivity
    linarith

/-- Self similarity is exactly 1. -/
theorem calculateSimilarity_self (a : String) : calculateSimilarity a a = 1 := by
  simp only [calculateSimilarity]
  by_cases h : max a.length a.length = 0
  · rw [if_pos h]
  · rw [if_neg h]
    have hz : levenshteinDistance (jsToLowerS a) (jsToLowerS a) = 0 := by
      simp [levenshteinDistance, levenshtein_defaultCost_self]
    have hne : ((max a.length a.length : ℕ) : ℚ) ≠ 0 := by exact_mod_cast h
    rw [hz, Nat.cast_zero, sub_zero, div_self hne]

/-! ## Behaviour of the radius-expansion loop -/

/-- A ring without a confident best neither stops the loop nor changes
the result: the loop records the ring as queried and moves on. -/
theorem searchLoop_of_confidentBest_none (dist : Coord → Coord → ℚ) (origin : Coord)
    (query : String) (provider : ℕ → Option (List PlaceResult)) (r : ℕ) (rs : List ℕ)
    (h : confidentBest dist origin query provider r = none) :
    searchLoop dist origin query provider (r :: rs) =
      ((searchLoop dist origin query provider rs).1,
        r :: (searchLoop dist origin query provider rs).2) := by
  unfold confidentBest at h
  cases hp : provider r with
  | none => simp [searchLoop, hp]
  | some results =>
      simp only [hp] at h
      cases hb : bestMatchOfRing dist origin query r results with
      | none => simp [searchLoop, hp, hb]
      | some bm =>
          simp only [hb] at h
          by_cases hge : bm.similarity ≥ (0.85 : ℚ)
          · rw [if_pos hge] at h; exact absurd h (by simp)
          · simp [searchLoop, hp, hb, hge]

/-- A ring with a confident best stops the loop at once: the loop
returns that best with the confidence ceiling of the ring, and the ring
is the last one queried. -/
theorem searchLoop_of_confidentBest_some (dist : Coord → Coord → ℚ) (origin : Coord)
    (query : String) (provider : ℕ → Option (List PlaceResult)) (r : ℕ) (rs : List ℕ)
    (bm : SearchMatch) (h : confidentBest dist origin query provider r = some bm) :
    searchLoop dist origin query provider (r :: rs) =
      (some ⟨bm.place, bm.distance, bm.similarity, confidenceThresholds r⟩, [r]) ∧
      bm.similarity ≥ (0.85 : ℚ) := by
  unfold confidentBest at h
  cases hp : provider r with
  | none => simp only [hp] at h; exact absurd h (by simp)
  | some results =>
      simp only [hp] at h
      cases hb : bestMatchOfRing dist origin query r results with
      | none => simp only [hb] at h; exact absurd h (by simp)
      | some bm2 =>
          simp only [hb] at h
          by_cases hge : bm2.similarity ≥ (0.85 : ℚ)
          · rw [if_pos hge] at h
            obtain rfl : bm2 = bm := by injection h
            exact ⟨by simp [searchLoop, hp, hb, hge], hge⟩
          · rw [if_neg hge] at h; exact absurd h (by simp)

/-- The loop returns nothing exactly when no ring has a confident best. -/
theorem searchLoop_none_iff (dist : Coord → Coord → ℚ) (origin : Coord) (query : String)
    (provider : ℕ → Option (List PlaceResult)) (rs : List ℕ) :
    (searchLoop dist origin query provider rs).1 = none ↔
      ∀ r ∈ rs, confidentBest dist origin query provider r = none := by
  induction rs with
  | nil => simp [searchLoop]
  | cons r rs ih =>
      cases hc : confidentBest dist origin query provider r with
      | some bm =>
          obtain ⟨heq, -⟩ :=
            searchLoop_of_confidentBest_some dist origin query provider r rs bm hc
          rw [heq]
          simp only [List.mem_cons]
          constructor
          · intro h; exact absurd h (by simp)
          · intro h
            have := h r (Or.inl rfl)
            rw [hc] at this
            exact absurd this (by simp)
      | none =>
          rw [searchLoop_of_confidentBest_none dist origin query provider r rs hc]
          simp only [List.mem_cons]
          rw [ih]
          constructor
          · intro h r2 hr2
            rcases hr2 with rfl | hr2
            · exact hc
            · exact h r2 hr2
          · intro h r2 hr2
            exact h r2 (Or.inr hr2)

/-- When the loop returns a result over a sorted ring list, the result
is the confident best of the first confident ring, carries the confidence
ceiling of that ring, every earlier ring has no confident best, and no
queried ring exceeds the selected one. -/
theorem searchLoop_some_spec (dist : Coord → Coord → ℚ) (origin : Coord) (query : String)
    (provider : ℕ → Option (List PlaceResult)) (rs : List ℕ)
    (hs : List.Sorted (· ≤ ·) rs) (sr : SearchResult)
    (h : (searchLoop dist origin query provider rs).1 = some sr) :
    ∃ r ∈ rs,
      confidentBest dist origin query provider r = some ⟨sr.place, sr.distance, sr.similarity⟩ ∧
      sr.confidence = confidenceThresholds r ∧
      sr.similarity ≥ (0.85 : ℚ) ∧
      (∀ r2 ∈ rs, r2 < r → confidentBest dist origin query provider r2 = none) ∧
      (∀ q2 ∈ (searchLoop dist origin query provider rs).2, q2 ≤ r) := by
  induction rs with
  | nil => exact absurd h (by simp [searchLoop])
  | cons r rs ih =>
      rw [List.sorted_cons] at hs
      obtain ⟨hall, hs2⟩ := hs
      cases hc : confidentBest dist origin query provider r with
      | some bm =>
          obtain ⟨heq, hge⟩ :=
            searchLoop_of_confidentBest_some dist origin query provider r rs bm hc
          rw [heq] at h
          simp only [Option.some.injEq] at h
          subst h
          refine ⟨r, List.mem_cons_self r rs, ?_, ?_, ?_, ?_, ?_⟩
          · exact hc
          · rfl
          · exact hge
          · intro r2 hr2 hlt
            rcases List.mem_cons.mp hr2 with rfl | hr2
            · exact absurd hlt (lt_irrefl r2)
            · exact absurd hlt (not_lt.mpr (hall r2 hr2))
          · intro q2 hq2
            rw [heq] at hq2
            simp only at hq2
            rcases List.mem_singleton.mp hq2 with rfl
            exact le_refl q2
      | none =>
          have heq := searchLoop_of_confidentBest_none dist origin query provider r rs hc
          rw [heq] at h
          simp only at h
          obtain ⟨r0, hr0, hcb, hconf, hsim, hearlier, hquer⟩ := ih hs2 h
          refine ⟨r0, List.mem_cons_of_mem r hr0, hcb, hconf, hsim, ?_, ?_⟩
          · intro r2 hr2 hlt
            rcases List.mem_cons.mp hr2 with rfl | hr2
            · exact hc
            · exact hearlier r2 hr2 hlt
          · intro q2 hq2
            rw [heq] at hq2
            simp only [List.mem_cons] at hq2
            rcases hq2 with rfl | hq2
            · exact hall r0 hr0
            · exact hquer q2 hq2

/-- The four radius rings are listed in increasing order. -/
theorem radiusLayers_sorted : List.Sorted (· ≤ ·) radiusLayers := by
  simp [radiusLayers, List.sorted_cons]

/-- C1: once some radius ring yields a best candidate with similarity
at least 0.85, the search marks that candidate selected, returns it
with the confidence ceiling of that ring, and never queries the provider at
a radius larger than that ring; when no ring yields such a candidate,
the search returns null. -/
theorem C1_search_short_circuits (dist : Coord → Coord → ℚ) (origin : Coord) (query : String)
    (provider : ℕ → Option (List PlaceResult)) :
    (searchPlacesWithExpansion dist origin query provider = none ↔
      ∀ r ∈ radiusLayers, confidentBest dist origin query provider r = none) ∧
    ∀ sr, searchPlacesWithExpansion dist origin query provider = some sr →
      ∃ r ∈ radiusLayers,
        confidentBest dist origin query provider r = some ⟨sr.place, sr.distance, sr.similarity⟩ ∧
        sr.confidence = confidenceThresholds r ∧
        sr.similarity ≥ (0.85 : ℚ) ∧
        (∀ r2 ∈ radiusLayers, r2 < r → confidentBest dist origin query provider r2 = none) ∧
        (∀ q2 ∈ queriedRadii dist origin query provider, q2 ≤ r) := by
  constructor
  · exact searchLoop_none_iff dist origin query provider radiusLayers
  · intro sr h
    exact searchLoop_some_spec dist origin query provider radiusLayers
      radiusLayers_sorted sr h

/-- Witness for C1 at a concrete input: a provider with only empty
rings yields no confident ring, so the search returns null. -/
theorem C1_search_short_circuits_witness :
    searchPlacesWithExpansion (fun _ _ => 0) ⟨0, 0⟩ "tree down near safeway"
      (fun _ => some []) = none :=
  (C1_search_short_circuits (fun _ _ => 0) ⟨0, 0⟩ "tree down near safeway"
      (fun _ => some [])).1.mpr (fun _ _ => rfl)

/-- Folding the best-match update only ever lands on the accumulator or
on one of the candidates. -/
theorem foldl_updateBest_mem (l : List SearchMatch) :
    ∀ (acc : Option SearchMatch) (bm : SearchMatch),
      l.foldl updateBest acc = some bm → acc = some bm ∨ bm ∈ l := by
  induction l with
  | nil => intro acc bm h; exact Or.inl h
  | cons c l ih =>
      intro acc bm h
      rw [List.foldl_cons] at h
      rcases ih (updateBest acc c) bm h with hu | hmem
      · unfold updateBest at hu
        by_cases hcond : (decide (c.similarity > (0.7 : ℚ)) && improves c acc) = true
        · rw [if_pos hcond] at hu
          obtain rfl : c = bm := by injection hu
          exact Or.inr (List.mem_cons_self c l)
        · rw [if_neg hcond] at hu
          exact Or.inl hu
      · exact Or.inr (List.mem_cons_of_mem c hmem)

/-- Every candidate of a ring carries the locally computed distance and
passed the local radius filter. -/
theorem mem_ringCandidates (dist : Coord → Coord → ℚ) (origin : Coord) (query : String)
    (radius : ℕ) (results : List PlaceResult) (bm : SearchMatch)
    (h : bm ∈ ringCandidates dist origin query radius results) :
    bm.distance = dist origin bm.place.location ∧ bm.distance ≤ metersToMiles radius := by
  unfold ringCandidates at h
  rcases List.mem_filterMap.mp h with ⟨place, hplace, heq⟩
  simp only at heq
  by_cases hd : dist origin place.location > metersToMiles radius
  · rw [if_pos hd] at heq; exact absurd heq (by simp)
  · rw [if_neg hd] at heq
    obtain rfl : (⟨place, dist origin place.location,
        maxSimilarityFor (businessNamesOf query) place⟩ : SearchMatch) = bm := by
      injection heq
    exact ⟨rfl, not_lt.mp hd⟩

/-- C2: the search never tracks as the best candidate of a ring, nor
returns, a place whose distance from the origin as computed by the
distance calculator exceeds the radius of the ring that produced it;
the radius filter of the provider itself is not trusted. -/
theorem C2_distance_respects_ring (dist : Coord → Coord → ℚ) (origin : Coord) (query : String)
    (provider : ℕ → Option (List PlaceResult)) :
    (∀ (radius : ℕ) (results : List PlaceResult) (bm : SearchMatch),
      bestMatchOfRing dist origin query radius results = some bm →
        bm.distance = dist origin bm.place.location ∧ bm.distance ≤ metersToMiles radius) ∧
    ∀ sr, searchPlacesWithExpansion dist origin query provider = some sr →
      sr.distance = dist origin sr.place.location ∧
      ∃ r ∈ radiusLayers, sr.confidence = confidenceThresholds r ∧
        sr.distance ≤ metersToMiles r := by
  have hring : ∀ (radius : ℕ) (results : List PlaceResult) (bm : SearchMatch),
      bestMatchOfRing dist origin query radius results = some bm →
        bm.distance = dist origin bm.place.location ∧ bm.distance ≤ metersToMiles radius := by
    intro radius results bm h
    unfold bestMatchOfRing at h
    rcases foldl_updateBest_mem _ _ _ h with hacc | hmem
    · exact absurd hacc (by simp)
    · exact mem_ringCandidates dist origin query radius results bm hmem
  refine ⟨hring, ?_⟩
  intro sr h
  obtain ⟨r, hrmem, hcb, hconf, -, -, -⟩ :=
    searchLoop_some_spec dist origin query provider radiusLayers radiusLayers_sorted sr h
  unfold confidentBest at hcb
  cases hp : provider r with
  | none => rw [hp] at hcb; exact absurd hcb (by simp)
  | some results =>
      rw [hp] at hcb
      simp only at hcb
      cases hb : bestMatchOfRing dist origin query r results with
      | none => simp only [hb] at hcb; exact absurd hcb (by simp)
      | some bm =>
          simp only [hb] at hcb
          have hbm := hring r results bm hb
          by_cases hge : bm.similarity ≥ (0.85 : ℚ)
          · rw [if_pos hge] at hcb
            have hbmeq : bm = ⟨sr.place, sr.distance, sr.similarity⟩ := by injection hcb
            constructor
            · have := hbm.1
              rw [hbmeq] at this
              exact this
            · refine ⟨r, hrmem, hconf, ?_⟩
              have := hbm.2
              rw [hbmeq] at this
              exact this
          · rw [if_neg hge] at hcb; exact absurd hcb (by simp)

/-- Witness for C2 at a concrete input: with one in-radius candidate
named exactly as the query word, the tracked best of the ring is that
candidate and its distance respects the ring radius. -/
theorem C2_distance_respects_ring_witness :
    bestMatchOfRing (fun _ _ => 0) ⟨0, 0⟩ "gas" 1600 [gasPlace] =
      some ⟨gasPlace, 0, 1⟩ ∧ (0 : ℚ) ≤ metersToMiles 1600 := by
  have hsim : calculateSimilarity "gas" "gas" = 1 := calculateSimilarity_self "gas"
  have hnames : businessNamesOf "gas" = ["gas"] := by decide
  have hmaxsim : maxSimilarityFor ["gas"] gasPlace = 1 := by
    unfold maxSimilarityFor
    simp only [List.foldl_cons, List.foldl_nil, gasPlace, hsim]
    norm_num
  have hcands : ringCandidates (fun _ _ => 0) ⟨0, 0⟩ "gas" 1600 [gasPlace] =
      [⟨gasPlace, 0, 1⟩] := by
    unfold ringCandidates
    simp only [List.filterMap_cons, List.filterMap_nil, hnames, hmaxsim]
    rw [if_neg (by unfold metersToMiles; norm_num)]
  have heval : bestMatchOfRing (fun _ _ => 0) ⟨0, 0⟩ "gas" 1600 [gasPlace] =
      some ⟨gasPlace, 0, 1⟩ := by
    unfold bestMatchOfRing
    rw [hcands]
    simp only [List.foldl_cons, List.foldl_nil]
    unfold updateBest improves
    rw [if_pos (by norm_num)]
  refine ⟨heval, ?_⟩
  have := (C2_distance_respects_ring (fun _ _ => 0) ⟨0, 0⟩ "gas"
    (fun _ => some [])).1 1600 [gasPlace] ⟨gasPlace, 0, 1⟩ heval
  simpa using this.2

/-- C9: the similarity score always lies in the closed interval from 0
to 1, self similarity is 1, and the similarity of two empty strings
is 1. -/
theorem C9_similarity_contract :
    (∀ a b : String, 0 ≤ calculateSimilarity a b ∧ calculateSimilarity a b ≤ 1) ∧
    (∀ a : String, calculateSimilarity a a = 1) ∧
    calculateSimilarity "" "" = 1 :=
  ⟨fun a b => ⟨calculateSimilarity_nonneg a b, calculateSimilarity_le_one a b⟩,
   calculateSimilarity_self, calculateSimilarity_self ""⟩

/-! ## Behaviour of the places-based handler -/

/-- Every analysis the handler serves is the catch-branch error
analysis, the no-location analysis, a confident-match analysis backed
by a search result, or the user-location fallback. -/
theorem serve_analysis_cases (env : Env) (req : Request) (a : HazardAnalysis) (s : Bool)
    (h : serve env req = .analysis a s) :
    (a = errorResponse ∧ s = true) ∨
    (a = noLocationAnalysis req ∧ s = false) ∨
    (∃ lk sr, req.locationContext.bind LocationContext.lastKnownLocation = some lk ∧
      searchPlacesWithExpansion env.dist ⟨lk.lat, lk.lng⟩ req.userInput env.provider = some sr ∧
      sr.similarity ≥ (0.85 : ℚ) ∧
      a = confidentAnalysis (classifyHazard req.userInput) (cleanDescription req.userInput) sr ∧
      s = false) ∨
    (∃ lk, req.locationContext.bind LocationContext.lastKnownLocation = some lk ∧
      a = userLocationFallback env (classifyHazard req.userInput) (cleanDescription req.userInput) lk ∧
      s = false) := by
  unfold serve at h
  cases hb : serveBody env req with
  | error e =>
      rw [hb] at h
      simp only [ServeResponse.analysis.injEq] at h
      exact Or.inl ⟨h.1.symm, h.2.symm⟩
  | ok r =>
      rw [hb] at h
      simp only at h
      subst h
      unfold serveBody at hb
      cases hk : env.hasGoogleMapsApiKey with
      | false => simp [hk] at hb
      | true =>
          simp only [hk, Bool.not_true] at hb
          rw [if_neg (by simp)] at hb
          by_cases hsent : req.userInput = "reverse-geocode-only" ∧
              (req.locationContext.bind LocationContext.lastKnownLocation).isSome
          · rw [if_pos hsent] at hb
            cases hlk : req.locationContext.bind LocationContext.lastKnownLocation with
            | none => simp only [hlk] at hb; exact absurd hb (by simp)
            | some lk =>
                simp only [hlk] at hb
                cases hg : env.reverseGeocode lk.lat lk.lng with
                | some addr => simp only [hg] at hb; exact absurd hb (by simp)
                | none => simp only [hg] at hb; exact absurd hb (by simp)
          · rw [if_neg hsent] at hb
            cases hlk : req.locationContext.bind LocationContext.lastKnownLocation with
            | none =>
                simp only [hlk, Except.ok.injEq, ServeResponse.analysis.injEq] at hb
                exact Or.inr (Or.inl ⟨hb.1.symm, hb.2.symm⟩)
            | some lk =>
                simp only [hlk] at hb
                cases hsr : searchPlacesWithExpansion env.dist ⟨lk.lat, lk.lng⟩
                    req.userInput env.provider with
                | none =>
                    simp only [hsr, Except.ok.injEq, ServeResponse.analysis.injEq] at hb
                    exact Or.inr (Or.inr (Or.inr ⟨lk, rfl, hb.1.symm, hb.2.symm⟩))
                | some sr =>
                    simp only [hsr] at hb
                    by_cases hge : sr.similarity ≥ (0.85 : ℚ)
                    · rw [if_pos hge] at hb
                      simp only [Except.ok.injEq, ServeResponse.analysis.injEq] at hb
                      exact Or.inr (Or.inr (Or.inl
                        ⟨lk, sr, rfl, hsr, hge, hb.1.symm, hb.2.symm⟩))
                    · rw [if_neg hge] at hb
                      simp only [Except.ok.injEq, ServeResponse.analysis.injEq] at hb
                      exact Or.inr (Or.inr (Or.inr ⟨lk, rfl, hb.1.symm, hb.2.symm⟩))

/-- The scored similarity of the counterexample place is exactly 1. -/
theorem maxSimilarityFor_lowRingPlace :
    maxSimilarityFor ["pothole", "safeway"] lowRingPlace = 1 := by
  unfold maxSimilarityFor
  simp only [List.foldl_cons, List.foldl_nil]
  rw [show lowRingPlace.name = "safeway" from rfl,
    calculateSimilarity_self "safeway"]
  have h2 := calculateSimilarity_le_one "pothole" "safeway"
  have hmax : max (max 0 (calculateSimilarity "pothole" "safeway")) 1 = 1 :=
    max_eq_right (max_le (by norm_num) h2)
  rw [hmax]
  norm_num

/-- The tracked best of the 16000 m ring in the counterexample. -/
theorem bestMatchOfRing_env16 :
    bestMatchOfRing env16.dist ⟨0, 0⟩ "pothole near safeway" 16000 [lowRingPlace] =
      some ⟨lowRingPlace, 0, 1⟩ := by
  have hnames : businessNamesOf "pothole near safeway" = ["pothole", "safeway"] := by decide
  have hcand : ringCandidates env16.dist ⟨0, 0⟩ "pothole near safeway" 16000 [lowRingPlace] =
      [⟨lowRingPlace, 0, 1⟩] := by
    unfold ringCandidates
    simp only [show env16.dist = (fun _ _ => (0 : ℚ)) from rfl]
    simp only [List.filterMap_cons, List.filterMap_nil, hnames, maxSimilarityFor_lowRingPlace]
    rw [if_neg (by unfold metersToMiles; norm_num)]
  unfold bestMatchOfRing
  rw [hcand]
  simp only [List.foldl_cons, List.foldl_nil]
  unfold updateBest improves
  rw [if_pos (by norm_num)]

/-- The confident best of the 16000 m ring in the counterexample. -/
theorem confidentBest_env16 :
    confidentBest env16.dist ⟨0, 0⟩ "pothole near safeway" env16.provider 16000 =
      some ⟨lowRingPlace, 0, 1⟩ := by
  unfold confidentBest
  simp only [show env16.provider 16000 = some [lowRingPlace] from rfl,
    bestMatchOfRing_env16]
  rw [if_pos (by norm_num)]

/-- The search of the counterexample selects the place of the largest
ring with the low confidence ceiling. -/
theorem search_env16 :
    searchPlacesWithExpansion env16.dist ⟨0, 0⟩ "pothole near safeway" env16.provider =
      some ⟨lowRingPlace, 0, 1, "low"⟩ := by
  have e1 : confidentBest env16.dist ⟨0, 0⟩ "pothole near safeway" env16.provider 1600 = none := rfl
  have e2 : confidentBest env16.dist ⟨0, 0⟩ "pothole near safeway" env16.provider 4800 = none := rfl
  have e3 : confidentBest env16.dist ⟨0, 0⟩ "pothole near safeway" env16.provider 8000 = none := rfl
  have s1 := searchLoop_of_confidentBest_none env16.dist ⟨0, 0⟩ "pothole near safeway"
    env16.provider 1600 [4800, 8000, 16000] e1
  have s2 := searchLoop_of_confidentBest_none env16.dist ⟨0, 0⟩ "pothole near safeway"
    env16.provider 4800 [8000, 16000] e2
  have s3 := searchLoop_of_confidentBest_none env16.dist ⟨0, 0⟩ "pothole near safeway"
    env16.provider 8000 [16000] e3
  have s4 := (searchLoop_of_confidentBest_some env16.dist ⟨0, 0⟩ "pothole near safeway"
    env16.provider 16000 [] ⟨lowRingPlace, 0, 1⟩ confidentBest_env16).1
  unfold searchPlacesWithExpansion
  rw [show radiusLayers = [1600, 4800, 8000, 16000] from rfl]
  rw [s1]
  simp only
  rw [s2]
  simp only
  rw [s3]
  simp only
  rw [s4]
  rfl

/-- The handler body on the counterexample input. -/
theorem serveBody_env16 : serveBody env16 req16 = .ok (.analysis c3Report false) := by
  unfold serveBody
  rw [if_neg (by decide), if_neg (by decide)]
  simp only [show req16.locationContext.bind LocationContext.lastKnownLocation =
    some ⟨0, 0, none⟩ from rfl, show req16.userInput = "pothole near safeway" from rfl]
  simp only [search_env16]
  rw [if_pos (by norm_num)]
  simp only [Except.ok.injEq, ServeResponse.analysis.injEq]
  exact ⟨by decide, trivial⟩

/-- Counterexample to C3 as stated: a confident match found only in
the largest radius ring is served with confidence low and
needsLocationConfirmation false. -/
theorem C3_counterexample :
    serve env16 req16 = .analysis c3Report false ∧
    c3Report.location.confidence = "low" ∧
    c3Report.needsLocationConfirmation = false := by
  refine ⟨?_, rfl, rfl⟩
  unfold serve
  rw [serveBody_env16]

/-- C3 amended: a served analysis whose location confidence is low and
whose location was not selected by the place search (source not
places_api) always has needsLocationConfirmation true; a confident
place-search match at the largest ring is the one exception, carrying
confidence low with needsLocationConfirmation false. -/
theorem C3_low_confidence_needs_confirmation (env : Env) (req : Request)
    (a : HazardAnalysis) (s : Bool) (h : serve env req = .analysis a s)
    (hlow : a.location.confidence = "low")
    (hsrc : a.location.source ≠ some "places_api") :
    a.needsLocationConfirmation = true := by
  rcases serve_analysis_cases env req a s h with
    ⟨rfl, -⟩ | ⟨rfl, -⟩ | ⟨lk, sr, -, -, -, rfl, -⟩ | ⟨lk, -, rfl, -⟩
  · rfl
  · rfl
  · exact absurd rfl hsrc
  · exact absurd hlow (by simp [userLocationFallback])

/-- Witness for the amended C3 at a concrete input: the error analysis
carries low confidence from a non-places source, and the theorem
yields its confirmation flag. -/
theorem C3_low_confidence_needs_confirmation_witness :
    serve envKeyless reqPlain = .analysis errorResponse true ∧
    errorResponse.location.confidence = "low" ∧
    errorResponse.location.source ≠ some "places_api" ∧
    errorResponse.needsLocationConfirmation = true := by
  refine ⟨rfl, rfl, by decide, ?_⟩
  exact C3_low_confidence_needs_confirmation envKeyless reqPlain errorResponse true rfl rfl
    (by decide)

/-- C5: when no ring of the search yields a candidate at the 0.85
threshold and a last-known location exists, the served analysis adopts
the last-known coordinates with confidence medium, source
user_location, and no confirmation request. -/
theorem C5_user_location_fallback (env : Env) (req : Request) (lk : LastKnown)
    (hk : env.hasGoogleMapsApiKey = true)
    (hni : req.userInput ≠ "reverse-geocode-only")
    (hlk : req.locationContext.bind LocationContext.lastKnownLocation = some lk)
    (hnone : ∀ r ∈ radiusLayers,
      confidentBest env.dist ⟨lk.lat, lk.lng⟩ req.userInput env.provider r = none) :
    serve env req = .analysis
      (userLocationFallback env (classifyHazard req.userInput)
        (cleanDescription req.userInput) lk) false ∧
    (userLocationFallback env (classifyHazard req.userInput)
        (cleanDescription req.userInput) lk).location.coordinates = ⟨lk.lat, lk.lng⟩ ∧
    (userLocationFallback env (classifyHazard req.userInput)
        (cleanDescription req.userInput) lk).location.confidence = "medium" ∧
    (userLocationFallback env (classifyHazard req.userInput)
        (cleanDescription req.userInput) lk).location.source = some "user_location" ∧
    (userLocationFallback env (classifyHazard req.userInput)
        (cleanDescription req.userInput) lk).needsLocationConfirmation = false := by
  have hsearch : searchPlacesWithExpansion env.dist ⟨lk.lat, lk.lng⟩
      req.userInput env.provider = none :=
    (searchLoop_none_iff env.dist ⟨lk.lat, lk.lng⟩ req.userInput env.provider
      radiusLayers).mpr hnone
  refine ⟨?_, rfl, rfl, rfl, rfl⟩
  unfold serve serveBody
  rw [if_neg (by simp [hk])]
  rw [if_neg (fun hc => hni hc.1)]
  simp only [hlk, hsearch]

/-- Witness for C5 at a concrete input: empty rings everywhere, a
last-known location present, and the served fallback fields as
claimed. -/
theorem C5_user_location_fallback_witness :
    serve envEmpty reqW = .analysis
      (userLocationFallback envEmpty (classifyHazard "pothole here")
        (cleanDescription "pothole here") lkW) false ∧
    (userLocationFallback envEmpty (classifyHazard "pothole here")
        (cleanDescription "pothole here") lkW).location.coordinates = ⟨37, -121⟩ ∧
    (userLocationFallback envEmpty (classifyHazard "pothole here")
        (cleanDescription "pothole here") lkW).location.confidence = "medium" ∧
    (userLocationFallback envEmpty (classifyHazard "pothole here")
        (cleanDescription "pothole here") lkW).location.source = some "user_location" ∧
    (userLocationFallback envEmpty (classifyHazard "pothole here")
        (cleanDescription "pothole here") lkW).needsLocationConfirmation = false := by
  have h := C5_user_location_fallback envEmpty reqW lkW rfl (by decide) rfl
    (fun r _ => rfl)
  exact h

/-- C10: on a confident search result the served description is the
cleaned user text with the suffix naming the matched place appended; it
is never the cleaned text alone. -/
theorem C10_description_appends_place (env : Env) (req : Request) (lk : LastKnown)
    (sr : SearchResult)
    (hk : env.hasGoogleMapsApiKey = true)
    (hni : req.userInput ≠ "reverse-geocode-only")
    (hlk : req.locationContext.bind LocationContext.lastKnownLocation = some lk)
    (hsr : searchPlacesWithExpansion env.dist ⟨lk.lat, lk.lng⟩
      req.userInput env.provider = some sr) :
    serve env req = .analysis
      (confidentAnalysis (classifyHazard req.userInput)
        (cleanDescription req.userInput) sr) false ∧
    (confidentAnalysis (classifyHazard req.userInput)
        (cleanDescription req.userInput) sr).description =
      ⟨(cleanDescription req.userInput).data ++ " near ".data ++ sr.place.name.data ++ ".".data⟩ ∧
    (confidentAnalysis (classifyHazard req.userInput)
        (cleanDescription req.userInput) sr).description ≠ cleanDescription req.userInput := by
  obtain ⟨r, -, -, -, hge, -, -⟩ :=
    searchLoop_some_spec env.dist ⟨lk.lat, lk.lng⟩ req.userInput env.provider
      radiusLayers radiusLayers_sorted sr hsr
  refine ⟨?_, rfl, ?_⟩
  · unfold serve serveBody
    rw [if_neg (by simp [hk])]
    rw [if_neg (fun hc => hni hc.1)]
    simp only [hlk, hsr]
    rw [if_pos hge]
  · intro heq
    have hdata := congrArg String.data heq
    have hlen := congrArg List.length hdata
    rw [show (confidentAnalysis (classifyHazard req.userInput)
        (cleanDescription req.userInput) sr).description.data =
      (cleanDescription req.userInput).data ++ " near ".data ++
        sr.place.name.data ++ ".".data from rfl] at hlen
    rw [List.length_append, List.length_append, List.length_append] at hlen
    have h6 : (" near ".data).length = 6 := rfl
    have h1 : (".".data).length = 1 := rfl
    omega

/-- Witness for C10 at a concrete input: the counterexample environment
of C3 also exercises the confident branch, and the served description
carries the appended place name. -/
theorem C10_description_appends_place_witness :
    serve env16 req16 = .analysis
      (confidentAnalysis (classifyHazard "pothole near safeway")
        (cleanDescription "pothole near safeway") ⟨lowRingPlace, 0, 1, "low"⟩) false ∧
    (confidentAnalysis (classifyHazard "pothole near safeway")
        (cleanDescription "pothole near safeway")
        ⟨lowRingPlace, 0, 1, "low"⟩).description = "Pothole near safeway near safeway." ∧
    (confidentAnalysis (classifyHazard "pothole near safeway")
        (cleanDescription "pothole near safeway")
        ⟨lowRingPlace, 0, 1, "low"⟩).description ≠
      cleanDescription "pothole near safeway" := by
  have h := C10_description_appends_place env16 req16 ⟨0, 0, none⟩ ⟨lowRingPlace, 0, 1, "low"⟩
    rfl (by decide) rfl search_env16
  exact ⟨h.1, by decide, h.2.2⟩

/-- C4 amended: in both entry points the top-level catch prevents any
thrown exception from propagating; the places-based handler converts it
into the generic medium-severity Road Hazard analysis with
needsLocationConfirmation true and always serves one of its structured
response shapes, while the LLM-variant handler instead serves an error
object with an error and a details field, not a hazard report. -/
theorem C4_top_level_catch :
    (∀ (env : Env) (req : Request) (e : String),
      serveBody env req = .error e →
      serve env req = .analysis errorResponse true ∧
      errorResponse.title = "Road Hazard" ∧
      errorResponse.severity = "medium" ∧
      errorResponse.needsLocationConfirmation = true) ∧
    (∀ (env : Env) (req : Request),
      (∃ a s, serve env req = .analysis a s) ∨
      (∃ s, serve env req = .reverseGeocodeResult s)) ∧
    (∀ (env : LLMVariant.LLMEnv) (req : LLMVariant.LLMRequest) (e : String),
      LLMVariant.serveBodyLLM env req = .error e →
      LLMVariant.serveLLM env req = .errorJson "Failed to analyze hazard report" e) := by
  refine ⟨?_, ?_, ?_⟩
  · intro env req e h
    refine ⟨?_, rfl, rfl, rfl⟩
    unfold serve
    rw [h]
  · intro env req
    unfold serve
    cases hb : serveBody env req with
    | error e => exact Or.inl ⟨errorResponse, true, rfl⟩
    | ok r =>
        cases r with
        | analysis a s => exact Or.inl ⟨a, s, rfl⟩
        | reverseGeocodeResult s => exact Or.inr ⟨s, rfl⟩
  · intro env req e h
    unfold LLMVariant.serveLLM
    rw [h]

/-- Counterexample to C4 as stated: on a well-formed input with the
OpenAI credential missing, the LLM-variant entry point serves a raw
error object, not a HazardReport-shaped result. -/
theorem C4_counterexample :
    LLMVariant.serveLLM envNoKey reqLLMPlain =
      .errorJson "Failed to analyze hazard report" "OpenAI API key not configured" ∧
    ∀ a : LLMVariant.LLMAnalysis,
      LLMVariant.serveLLM envNoKey reqLLMPlain ≠ .analysis a := by
  refine ⟨rfl, ?_⟩
  intro a h
  rw [show LLMVariant.serveLLM envNoKey reqLLMPlain =
    .errorJson "Failed to analyze hazard report" "OpenAI API key not configured" from rfl] at h
  exact absurd h (by simp)

/-- Witness for the amended C4 at concrete inputs: the places handler
converts its missing-credential throw into the error analysis, and the
LLM-variant handler converts its own into the error object. -/
theorem C4_top_level_catch_witness :
    serve envKeyless reqPlain = .analysis errorResponse true ∧
    LLMVariant.serveLLM envNoKey reqLLMPlain =
      .errorJson "Failed to analyze hazard report" "OpenAI API key not configured" :=
  ⟨(C4_top_level_catch.1 envKeyless reqPlain "Google Maps API key not configured" rfl).1,
   C4_top_level_catch.2.2 envNoKey reqLLMPlain "OpenAI API key not configured" rfl⟩

/-- Counterexample to C6 as stated: the keyword fallback of the LLM
variant hardcodes hazardType to the string Road hazard, never ice. -/
theorem C6_counterexample :
    (LLMVariant.createSimpleFallback "Ice patch on Highway 151 near Verona" none).hazardType =
      "Road hazard" ∧
    (LLMVariant.createSimpleFallback "Ice patch on Highway 151 near Verona" none).hazardType ≠
      "ice" := by
  constructor
  · rfl
  · decide

/-- C6 amended: for the ice-patch input with no location context the
keyword fallback yields title Ice Hazard, severity high, a null
location and needsLocationConfirmation true, but its hazardType is the
fixed string Road hazard rather than ice. -/
theorem C6_keyword_fallback_scenario :
    LLMVariant.createSimpleFallback "Ice patch on Highway 151 near Verona" none =
      { title := "Ice Hazard"
        hazardType := "Road hazard"
        description := "Ice patch on Highway 151 near Verona."
        location := none
        severity := "high"
        needsLocationConfirmation := true
        aiReasoning := some "Analysis created using fallback logic due to AI service unavailability" } := by
  decide

/-- Counterexample to C7 as stated: the classification of the text
sign down has hazardType debris with severity low, not medium. -/
theorem C7_counterexample :
    (classifyHazard "sign down").hazardType = "debris" ∧
    (classifyHazard "sign down").severity = "low" ∧
    (classifyHazard "sign down").severity ≠ "medium" := by
  decide

/-- The classifier only ever returns one of its ten literal outcome
triples. -/
theorem classifyHazard_cases (text : String) :
    classifyHazard text ∈
      ([⟨"accident", "high", "Accident Alert"⟩,
        ⟨"ice", "high", "Ice Hazard"⟩,
        ⟨"obstruction", "high", "Fallen Tree"⟩,
        ⟨"obstruction", "high", "Road Closure"⟩,
        ⟨"flooding", "medium", "Water Hazard"⟩,
        ⟨"construction", "medium", "Construction Zone"⟩,
        ⟨"debris", "medium", "Road Debris"⟩,
        ⟨"pothole", "low", "Pothole Alert"⟩,
        ⟨"debris", "low", "Sign Down"⟩,
        ⟨"unknown", "medium", "Road Hazard"⟩] : List Classification) := by
  unfold classifyHazard
  dsimp only
  split_ifs
  all_goals simp

/-- C7 amended: severity follows hazardType through the fixed mapping
(ice, obstruction and accident to high; flooding and construction to
medium; pothole to low) except that hazardType debris arises both with
severity medium (Road Debris) and, for the sign-down rule, with
severity low (Sign Down). -/
theorem C7_severity_mapping (text : String) :
    ((classifyHazard text).hazardType = "accident" → (classifyHazard text).severity = "high") ∧
    ((classifyHazard text).hazardType = "ice" → (classifyHazard text).severity = "high") ∧
    ((classifyHazard text).hazardType = "obstruction" → (classifyHazard text).severity = "high") ∧
    ((classifyHazard text).hazardType = "flooding" → (classifyHazard text).severity = "medium") ∧
    ((classifyHazard text).hazardType = "construction" → (classifyHazard text).severity = "medium") ∧
    ((classifyHazard text).hazardType = "pothole" → (classifyHazard text).severity = "low") ∧
    ((classifyHazard text).hazardType = "debris" →
      (classifyHazard text).severity = "medium" ∨
      ((classifyHazard text).severity = "low" ∧ (classifyHazard text).title = "Sign Down")) := by
  have h := classifyHazard_cases text
  simp only [List.mem_cons, List.not_mem_nil, or_false] at h
  rcases h with h | h | h | h | h | h | h | h | h | h
  all_goals simp [h]

/-- Witness for the amended C7 at a concrete input: the sign-down text
lands in the low-severity debris branch. -/
theorem C7_severity_mapping_witness :
    (classifyHazard "sign down").severity = "medium" ∨
    ((classifyHazard "sign down").severity = "low" ∧
      (classifyHazard "sign down").title = "Sign Down") :=
  (C7_severity_mapping "sign down").2.2.2.2.2.2 (by decide)

/-- C8: the cleanup of the places-based handler corrects the
misspelling table and capitalizes, but its ending normalisation never
adds punctuation, so an input without terminal punctuation is served
without one; the sibling cleanup of the LLM variant does append the
period, which together with the source comment marks the regex as the
slip. -/
theorem C8_cleanDescription_no_terminal_punctuation :
    cleanDescription "pothole here" = "Pothole here" ∧
    endsInTerminalPunct (cleanDescription "pothole here").data = false ∧
    cleanDescription "theres ice on teh road" = "There is ice on the road" ∧
    endsInTerminalPunct (cleanDescription "theres ice on teh road").data = false ∧
    LLMVariant.processHazardTextDescription "pothole here" = "Pothole here." ∧
    endsInTerminalPunct (LLMVariant.processHazardTextDescription "pothole here").data = true := by
  decide
